import Mathlib

/-!
Verification of the Milvus proxy RPC-handler layer
(src/internal/metrics/proxy_metrics.go: the `metrics` preamble plus the
`proxy` package handler file).

The Go handlers are shallowly embedded as pure Lean functions.  Each
handler takes, besides the request, the outcomes of its external
interactions (the node's state code, the scheduler queue's Enqueue
result, the task's WaitToFinish result, the completed task's result
value, proto message sizes) as explicit parameters, and returns the
wire response together with the ordered list of observable side
effects (metric counter additions, rate-collector additions, scheduler
enqueue calls, cache removals).  Latency histogram observations and
log statements are time/IO effects with no data content and are not
modelled.  Every return statement in the embedded handlers carries a
nil Go-level error, represented by the `goErr` field being `none`.
-/

/-- commonpb.ErrorCode (the subset relevant to the proxy handlers; the
real enum has many more codes, all distinct from `Success`). -/
inductive ErrorCode where
  | Success
  | UnexpectedError
  | IllegalArgument
  | CollectionNotExists
  | RateLimit
  deriving DecidableEq

/-- commonpb.StateCode. -/
inductive StateCode where
  | Initializing
  | Healthy
  | Abnormal
  | StandBy
  deriving DecidableEq

/-- commonpb.MsgType (subset). -/
inductive MsgType where
  | Undefined
  | CreateCollection
  | DropCollection
  | Insert
  | Delete
  deriving DecidableEq

/-- commonpb.Status. -/
structure Status where
  errorCode : ErrorCode := ErrorCode.Success
  reason : String := ""
  deriving DecidableEq

/-- commonpb.MsgBase (subset). -/
structure MsgBase where
  msgType : MsgType := MsgType.Undefined
  deriving DecidableEq

/-- Go getter chain request.GetBase().GetMsgType(): nil base reads as
the zero MsgType. -/
def getMsgType : Option MsgBase → MsgType
  | none => MsgType.Undefined
  | some b => b.msgType

/-- Observable side effects of a handler, in program order.
`rateColAdd` is rateCol.Add, `receiveBytesAdd` is
metrics.ProxyReceiveBytes.Add, `sendBytesAdd` is
metrics.ProxyReadReqSendBytes.Add, `functionCall` is
metrics.ProxyFunctionCall.Inc, `enqueueCalled` is a call to
node.sched.<queue>.Enqueue, `waitCalled` is a call to the task's
WaitToFinish.  The remaining constructors cover the meta-cache and
channel-manager calls of InvalidateCollectionMetaCache and the rate
limiter update of SetRates. -/
inductive Event where
  | rateColAdd (key : String) (amount : Nat)
  | receiveBytesAdd (label : String) (amount : Nat)
  | functionCall (method : String) (label : String)
  | enqueueCalled (queue : String)
  | waitCalled
  | sendBytesAdd (amount : Nat)
  | removeCollectionByName (name : String)
  | removeCollectionsByID (id : Int)
  | removeDMLStream (id : Int)
  | cleanupCollectionMetrics (name : String)
  | limiterSetRates
  deriving DecidableEq

/-- A handler's observable outcome: the response value, the side
effects in order, and the Go-level error (always nil in the embedded
handlers). -/
structure HandlerOut (α : Type) where
  resp : α
  events : List Event
  goErr : Option String := none
  deriving DecidableEq

/- Label and key constants.  The metric label values live in the
metrics package outside this file; no claim depends on the concrete
strings, only on their use as distinct keys. -/

def InsertLabel : String := "insert"

def DeleteLabel : String := "delete"

def SearchLabel : String := "search"

def QueryLabel : String := "query"

def TotalLabel : String := "total"

def SuccessLabel : String := "success"

def FailLabel : String := "fail"

def AbandonLabel : String := "abandon"

/-- internalpb.RateType_DMLInsert.String(). -/
def RateTypeDMLInsert : String := "DMLInsert"

/-- internalpb.RateType_DMLDelete.String(). -/
def RateTypeDMLDelete : String := "DMLDelete"

/-- internalpb.RateType_DQLSearch.String(). -/
def RateTypeDQLSearch : String := "DQLSearch"

/-- internalpb.RateType_DQLQuery.String(). -/
def RateTypeDQLQuery : String := "DQLQuery"

/-- metricsinfo.ReadResultThroughput. -/
def ReadResultThroughput : String := "ReadResultThroughput"

/-- Proxy.checkHealthy: the loaded state code equals
commonpb.StateCode_Healthy. -/
def checkHealthy (stateCode : StateCode) : Bool :=
  stateCode == StateCode.Healthy

/-- unhealthyStatus(): the status returned when the proxy is not
healthy. -/
def unhealthyStatus : Status :=
  { errorCode := ErrorCode.UnexpectedError
    reason := "proxy not healthy" }

/-- The &commonpb.Status{ErrorCode: UnexpectedError, Reason:
err.Error()} literal the handlers build on enqueue/wait failure. -/
def failStatus (errMsg : String) : Status :=
  { errorCode := ErrorCode.UnexpectedError
    reason := errMsg }

/-- milvuspb.MutationResult (claim-relevant fields; the remaining
proto fields are untouched by the embedded handler paths). -/
structure MutationResult where
  status : Status := {}
  succIndex : List Nat := []
  errIndex : List Nat := []
  insertCnt : Int := 0
  deleteCnt : Int := 0
  timestamp : Nat := 0
  deriving DecidableEq

/-- milvuspb.InsertRequest (claim-relevant fields). -/
structure InsertRequest where
  dbName : String := ""
  collectionName : String := ""
  partitionName : String := ""
  numRows : Nat := 0
  deriving DecidableEq

/-- The insert task's embedded internalpb.InsertRequest fields as
constructed by Proxy.Insert (claim-relevant subset). -/
structure BaseInsertTask where
  msgType : MsgType
  collectionName : String
  partitionName : String
  numRows : Nat
  deriving DecidableEq

/-- The insertTask literal built in Proxy.Insert: MsgType_Insert, the
request's collection, partition and row count copied verbatim. -/
def buildInsertTask (request : InsertRequest) : BaseInsertTask :=
  { msgType := MsgType.Insert
    collectionName := request.collectionName
    partitionName := request.partitionName
    numRows := request.numRows }

/-- Proxy.Insert lines "if len(it.PartitionName) <= 0
{ it.PartitionName = Params.CommonCfg.DefaultPartitionName }". -/
def applyDefaultPartitionName (it : BaseInsertTask)
    (defaultPartitionName : String) : BaseInsertTask :=
  if it.partitionName.length ≤ 0 then
    { it with partitionName := defaultPartitionName }
  else it

/-- The constructFailedResponse closure of Proxy.Insert: status
UnexpectedError with the error's message, ErrIndex = [0, numRows);
every other field (in particular InsertCnt) keeps its zero value. -/
def constructFailedResponse (request : InsertRequest)
    (errMsg : String) : MutationResult :=
  { status := { errorCode := ErrorCode.UnexpectedError, reason := errMsg }
    errIndex := List.range request.numRows }

namespace Proxy

/-- Output of Proxy.Insert: besides the response/events/goErr, `task`
records the insertTask handed to the scheduler (`none` when the
handler returned before constructing it). -/
structure InsertOut where
  resp : MutationResult
  events : List Event
  goErr : Option String := none
  task : Option BaseInsertTask := none
  deriving DecidableEq

/-- Proxy.Insert.  `receiveSize` is proto.Size(request); `enqueue` is
the outcome of node.sched.dmQueue.Enqueue(it); `wait` the outcome of
it.WaitToFinish(); `taskResult` the value of it.result after a
successful wait. -/
def Insert (stateCode : StateCode) (request : InsertRequest)
    (receiveSize : Nat) (defaultPartitionName : String)
    (enqueue : Except String Unit) (wait : Except String Unit)
    (taskResult : MutationResult) : InsertOut :=
  if checkHealthy stateCode = false then
    { resp := { status := unhealthyStatus }, events := [] }
  else
    let ev0 : List Event :=
      [Event.rateColAdd RateTypeDMLInsert receiveSize,
       Event.receiveBytesAdd InsertLabel receiveSize,
       Event.functionCall "Insert" TotalLabel]
    let it := applyDefaultPartitionName (buildInsertTask request)
      defaultPartitionName
    match enqueue with
    | Except.error errMsg =>
        { resp := constructFailedResponse request errMsg
          events := ev0 ++ [Event.enqueueCalled "dm",
            Event.functionCall "Insert" AbandonLabel]
          task := some it }
    | Except.ok _ =>
      match wait with
      | Except.error errMsg =>
          { resp := constructFailedResponse request errMsg
            events := ev0 ++ [Event.enqueueCalled "dm", Event.waitCalled,
              Event.functionCall "Insert" FailLabel]
            task := some it }
      | Except.ok _ =>
          let r1 :=
            if taskResult.status.errorCode ≠ ErrorCode.Success then
              { taskResult with errIndex := List.range request.numRows }
            else taskResult
          let r2 := { r1 with insertCnt := (request.numRows : Int) }
          { resp := r2
            events := ev0 ++ [Event.enqueueCalled "dm", Event.waitCalled,
              Event.functionCall "Insert" SuccessLabel]
            task := some it }

end Proxy

/-- milvuspb.DeleteRequest (claim-relevant fields). -/
structure DeleteRequest where
  dbName : String := ""
  collectionName : String := ""
  partitionName : String := ""
  expr : String := ""
  deriving DecidableEq

/-- milvuspb.SearchRequest (claim-relevant fields; `nq` is
request.GetNq()). -/
structure SearchRequest where
  dbName : String := ""
  collectionName : String := ""
  nq : Nat := 0
  travelTimestamp : Nat := 0
  guaranteeTimestamp : Nat := 0
  deriving DecidableEq

/-- milvuspb.SearchResults: the status plus an abstract stand-in for
the result body (the handler never inspects the body). -/
structure SearchResults where
  status : Status := {}
  payload : Nat := 0
  deriving DecidableEq

/-- milvuspb.QueryRequest (claim-relevant fields). -/
structure QueryRequest where
  dbName : String := ""
  collectionName : String := ""
  expr : String := ""
  travelTimestamp : Nat := 0
  guaranteeTimestamp : Nat := 0
  deriving DecidableEq

/-- milvuspb.QueryResults: status, field data (abstracted) and the
collection name field that Proxy.Query drops when re-wrapping the
task's result. -/
structure QueryResults where
  status : Status := {}
  fieldsData : List Nat := []
  collectionName : String := ""
  deriving DecidableEq

/-- milvuspb.FlushResponse (claim-relevant fields). -/
structure FlushResponse where
  status : Status := {}
  deriving DecidableEq

/-- proxypb.InvalidateCollMetaCacheRequest. -/
structure InvalidateCollMetaCacheRequest where
  base : Option MsgBase := none
  dbName : String := ""
  collectionName : String := ""
  collectionID : Int := 0
  deriving DecidableEq

/-- milvuspb.CheckHealthResponse. -/
structure CheckHealthResponse where
  isHealthy : Bool := false
  reasons : List String := []
  deriving DecidableEq

/-- errorutil.UnHealthReason lives outside this file; the exact format
is irrelevant to the claims, only that a reason string is produced. -/
def UnHealthReason (role : String) (serverID : Int) (reason : String) :
    String :=
  role ++ " " ++ toString serverID ++ " is unhealthy, reason: " ++ reason

/-- True when a coordinator CheckHealth RPC returned a Go-level
error. -/
def isRPCError : Except String CheckHealthResponse → Bool
  | Except.error _ => true
  | Except.ok _ => false

/-- The reason-collecting closure `fn` of Proxy.CheckHealth: an RPC
error contributes "check health fail for <role>"; an unhealthy
response contributes its own reasons (hence nothing at all when its
Reasons list is empty); a healthy response contributes nothing. -/
def fnCollect (role : String)
    (outcome : Except String CheckHealthResponse) : List String :=
  match outcome with
  | Except.error _ => ["check health fail for " ++ role]
  | Except.ok resp => if resp.isHealthy then [] else resp.reasons

namespace Proxy

/-- Proxy.Delete. `receiveSize` is proto.Size(request); ingress
accounting (rateCol and ProxyReceiveBytes) happens before the health
check. -/
def Delete (stateCode : StateCode) (request : DeleteRequest)
    (receiveSize : Nat) (enqueue : Except String Unit)
    (wait : Except String Unit) (taskResult : MutationResult) :
    HandlerOut MutationResult :=
  let ev0 : List Event :=
    [Event.rateColAdd RateTypeDMLDelete receiveSize,
     Event.receiveBytesAdd DeleteLabel receiveSize]
  if checkHealthy stateCode = false then
    { resp := { status := unhealthyStatus }, events := ev0 }
  else
    let ev1 := ev0 ++ [Event.functionCall "Delete" TotalLabel,
      Event.enqueueCalled "dm"]
    match enqueue with
    | Except.error errMsg =>
        { resp := { status := failStatus errMsg }
          events := ev1 ++ [Event.functionCall "Delete" AbandonLabel] }
    | Except.ok _ =>
      match wait with
      | Except.error errMsg =>
          { resp := { status := failStatus errMsg }
            events := ev1 ++ [Event.waitCalled,
              Event.functionCall "Delete" FailLabel] }
      | Except.ok _ =>
          { resp := taskResult
            events := ev1 ++ [Event.waitCalled,
              Event.functionCall "Delete" SuccessLabel] }

/-- Proxy.Search. `receiveSize` is proto.Size(request); ingress
accounting happens before the health check, the search rate cost being
the number of queries (GetNq).  `protoSize` is proto.Size on the
result message; the task's result pointer may be nil (`none`), in
which case the outbound accounting is skipped. -/
def Search (stateCode : StateCode) (request : SearchRequest)
    (receiveSize : Nat) (protoSize : SearchResults → Nat)
    (enqueue : Except String Unit) (wait : Except String Unit)
    (taskResult : Option SearchResults) :
    HandlerOut (Option SearchResults) :=
  let ev0 : List Event :=
    [Event.receiveBytesAdd SearchLabel receiveSize,
     Event.rateColAdd RateTypeDQLSearch request.nq]
  if checkHealthy stateCode = false then
    { resp := some { status := unhealthyStatus }, events := ev0 }
  else
    let ev1 := ev0 ++ [Event.functionCall "Search" TotalLabel,
      Event.enqueueCalled "dq"]
    match enqueue with
    | Except.error errMsg =>
        { resp := some { status := failStatus errMsg }
          events := ev1 ++ [Event.functionCall "Search" AbandonLabel] }
    | Except.ok _ =>
      match wait with
      | Except.error errMsg =>
          { resp := some { status := failStatus errMsg }
            events := ev1 ++ [Event.waitCalled,
              Event.functionCall "Search" FailLabel] }
      | Except.ok _ =>
          let egress : List Event :=
            match taskResult with
            | some r => [Event.sendBytesAdd (protoSize r),
                Event.rateColAdd ReadResultThroughput (protoSize r)]
            | none => []
          { resp := taskResult
            events := ev1 ++ [Event.waitCalled,
              Event.functionCall "Search" SuccessLabel] ++ egress }

/-- The response literal Proxy.Query returns on success: only Status
and FieldsData of the task's result are copied over. -/
def queryRet (r : QueryResults) : QueryResults :=
  { status := r.status, fieldsData := r.fieldsData }

/-- Proxy.Query. Ingress accounting (proto.Size of the request into
ProxyReceiveBytes, a unit count into the DQLQuery rate) happens before
the health check; on success the merged result's proto.Size is added
to the read-result throughput and send-bytes counters before
returning. -/
def Query (stateCode : StateCode) (request : QueryRequest)
    (receiveSize : Nat) (protoSize : QueryResults → Nat)
    (enqueue : Except String Unit) (wait : Except String Unit)
    (taskResult : QueryResults) : HandlerOut QueryResults :=
  let ev0 : List Event :=
    [Event.receiveBytesAdd QueryLabel receiveSize,
     Event.rateColAdd RateTypeDQLQuery 1]
  if checkHealthy stateCode = false then
    { resp := { status := unhealthyStatus }, events := ev0 }
  else
    let ev1 := ev0 ++ [Event.functionCall "Query" TotalLabel,
      Event.enqueueCalled "dq"]
    match enqueue with
    | Except.error errMsg =>
        { resp := { status := failStatus errMsg }
          events := ev1 ++ [Event.functionCall "Query" AbandonLabel] }
    | Except.ok _ =>
      match wait with
      | Except.error errMsg =>
          { resp := { status := failStatus errMsg }
            events := ev1 ++ [Event.waitCalled,
              Event.functionCall "Query" FailLabel] }
      | Except.ok _ =>
          { resp := queryRet taskResult
            events := ev1 ++ [Event.waitCalled,
              Event.functionCall "Query" SuccessLabel,
              Event.rateColAdd ReadResultThroughput (protoSize taskResult),
              Event.sendBytesAdd (protoSize taskResult)] }

/-- Proxy.CreateCollection (request payload irrelevant to the claims;
`taskResult` is cct.result). -/
def CreateCollection (stateCode : StateCode)
    (enqueue : Except String Unit) (wait : Except String Unit)
    (taskResult : Status) : HandlerOut Status :=
  if checkHealthy stateCode = false then
    { resp := unhealthyStatus, events := [] }
  else
    let ev1 : List Event := [Event.functionCall "CreateCollection" TotalLabel,
      Event.enqueueCalled "dd"]
    match enqueue with
    | Except.error errMsg =>
        { resp := failStatus errMsg
          events := ev1 ++ [Event.functionCall "CreateCollection" AbandonLabel] }
    | Except.ok _ =>
      match wait with
      | Except.error errMsg =>
          { resp := failStatus errMsg
            events := ev1 ++ [Event.waitCalled,
              Event.functionCall "CreateCollection" FailLabel] }
      | Except.ok _ =>
          { resp := taskResult
            events := ev1 ++ [Event.waitCalled,
              Event.functionCall "CreateCollection" SuccessLabel] }

/-- Proxy.Flush.  Note the response starts as UnexpectedError with an
empty reason and the unhealthy branch sets the reason to
"proxy is not healthy" (not unhealthyStatus()'s "proxy not
healthy"). -/
def Flush (stateCode : StateCode) (enqueue : Except String Unit)
    (wait : Except String Unit) (taskResult : FlushResponse) :
    HandlerOut FlushResponse :=
  if checkHealthy stateCode = false then
    { resp := { status := { errorCode := ErrorCode.UnexpectedError
                            reason := "proxy is not healthy" } }
      events := [] }
  else
    let ev1 : List Event := [Event.functionCall "Flush" TotalLabel,
      Event.enqueueCalled "dd"]
    match enqueue with
    | Except.error errMsg =>
        { resp := { status := failStatus errMsg }
          events := ev1 ++ [Event.functionCall "Flush" AbandonLabel] }
    | Except.ok _ =>
      match wait with
      | Except.error errMsg =>
          { resp := { status := failStatus errMsg }
            events := ev1 ++ [Event.waitCalled,
              Event.functionCall "Flush" FailLabel] }
      | Except.ok _ =>
          { resp := taskResult
            events := ev1 ++ [Event.waitCalled,
              Event.functionCall "Flush" SuccessLabel] }

/-- Proxy.InvalidateCollectionMetaCache.  `globalMetaCachePresent`
models the nil test on the globalMetaCache package variable.  Removal
by name happens when the name is non-empty, removal by ID when the ID
is non-zero; the DML stream and the per-collection metrics are torn
down exactly on a DropCollection push; the status is always
Success. -/
def InvalidateCollectionMetaCache (globalMetaCachePresent : Bool)
    (request : InvalidateCollMetaCacheRequest) : HandlerOut Status :=
  let ev1 : List Event :=
    if globalMetaCachePresent then
      (if request.collectionName ≠ "" then
        [Event.removeCollectionByName request.collectionName] else []) ++
      (if request.collectionID ≠ 0 then
        [Event.removeCollectionsByID request.collectionID] else [])
    else []
  let ev2 : List Event :=
    if getMsgType request.base = MsgType.DropCollection then
      [Event.removeDMLStream request.collectionID,
       Event.cleanupCollectionMetrics request.collectionName]
    else []
  { resp := { errorCode := ErrorCode.Success, reason := "" }
    events := ev1 ++ ev2 }

/-- Proxy.SetRates.  `update` is the outcome of
node.multiRateLimiter.globalRateLimiter.setRates(request.GetRates());
the unhealthy branch returns before touching the limiter. -/
def SetRates (stateCode : StateCode) (update : Except String Unit) :
    HandlerOut Status :=
  if checkHealthy stateCode = false then
    { resp := unhealthyStatus, events := [] }
  else
    match update with
    | Except.error errMsg =>
        { resp := failStatus errMsg
          events := [Event.limiterSetRates] }
    | Except.ok _ =>
        { resp := { errorCode := ErrorCode.Success, reason := "" }
          events := [Event.limiterSetRates] }

/-- Proxy.CheckHealth.  The four coordinator CheckHealth RPCs run in
an errgroup; group.Wait() returns a non-nil error exactly when some
RPC errored, and the reasons are appended under a mutex.  The
concurrent append order is nondeterministic; this embedding fixes the
goroutine launch order (root, query, data, index), which is immaterial
to the IsHealthy outcome.  (Cancellation after a first error can turn
later calls into errors too; that only grows the reason list and
cannot flip IsHealthy, which is already false.) -/
def CheckHealth (stateCode : StateCode) (serverID : Int)
    (root query data index : Except String CheckHealthResponse) :
    HandlerOut CheckHealthResponse :=
  if checkHealthy stateCode = false then
    { resp := { isHealthy := false
                reasons :=
                  [UnHealthReason "proxy" serverID "proxy is unhealthy"] }
      events := [] }
  else
    let errReasons :=
      fnCollect "rootcoord" root ++ fnCollect "querycoord" query ++
      fnCollect "datacoord" data ++ fnCollect "indexcoord" index
    let errOccurred :=
      isRPCError root || isRPCError query || isRPCError data ||
      isRPCError index
    if errOccurred = true ∨ errReasons.length ≠ 0 then
      { resp := { isHealthy := false, reasons := errReasons }, events := [] }
    else
      { resp := { isHealthy := true, reasons := [] }, events := [] }

end Proxy

/-!
Task scheduler model for the enqueue-time timestamp/ID assignment
claim.  The task scheduler and task queue implementation
(task_scheduler.go / the task queue types) is not part of the source
file under verification — the handlers only call
node.sched.<queue>.Enqueue — so it is modelled from the spec here.
-/

/-- Modelled from the spec: a task as seen by the scheduler queue,
after admission — spec section 4.1 assigns "ID and BeginTs at the
moment a task is accepted into a queue — not at construction time".
The payload is irrelevant to the ordering claim. -/
structure SchedTask where
  id : Int
  beginTs : Nat
  deriving DecidableEq

/-- Modelled from the spec: the queue state relevant to admission —
the next task ID to hand out and the last timestamp obtained from the
Logical Clock Client (spec section 6: "must return strictly increasing
timestamps across calls"). -/
structure TaskQueue where
  nextID : Int := 0
  lastTs : Nat := 0
  deriving DecidableEq

/-- Modelled from the spec: one Logical Clock read; strictly greater
than every earlier read (distinct clock reads). -/
def allocTimestamp (q : TaskQueue) : Nat := q.lastTs + 1

/-- Modelled from the spec: queue admission — Enqueue assigns the
task's ID and BeginTs from the queue's allocator and clock at the
moment of acceptance. -/
def TaskQueue.enqueue (q : TaskQueue) : TaskQueue × SchedTask :=
  let ts := allocTimestamp q
  ({ nextID := q.nextID + 1, lastTs := ts },
   { id := q.nextID, beginTs := ts })

/-- Modelled from the spec: admit `n` tasks one after the other,
returning the admitted tasks in admission order. -/
def TaskQueue.enqueueAll (q : TaskQueue) : Nat → TaskQueue × List SchedTask
  | 0 => (q, [])
  | n + 1 =>
    let (q1, t) := q.enqueue
    let (q2, ts) := q1.enqueueAll n
    (q2, t :: ts)


/-!  Theorems -/

theorem string_length_zero_iff (s : String) : s.length = 0 ↔ s = "" := by
  cases s with
  | mk data =>
      cases data with
      | nil => simp
      | cons c cs =>
          constructor
          · intro h
            simp [String.length] at h
          · intro h
            have hd : (c :: cs : List Char) = [] := congrArg String.data h
            simp at hd

theorem enqueueAll_bounds (n : Nat) :
    ∀ (q : TaskQueue) (t : SchedTask), t ∈ (q.enqueueAll n).2 →
      q.lastTs < t.beginTs ∧ q.nextID ≤ t.id := by
  induction n with
  | zero =>
      intro q t ht
      simp [TaskQueue.enqueueAll] at ht
  | succ n ih =>
      intro q t ht
      simp only [TaskQueue.enqueueAll, TaskQueue.enqueue, allocTimestamp,
        List.mem_cons] at ht
      rcases ht with h | h
      · subst h
        exact ⟨Nat.lt_succ_self _, le_refl _⟩
      · have hb := ih { nextID := q.nextID + 1, lastTs := q.lastTs + 1 } t h
        exact ⟨Nat.lt_of_succ_lt hb.1,
          le_trans (Int.le_add_one (le_refl q.nextID)) hb.2⟩

/-- C4: tasks admitted one after another into the same scheduler queue
receive strictly increasing BeginTs (the clock reads being distinct)
and strictly increasing IDs, in admission order; the ID and BeginTs of
a task are assigned by Enqueue, from the queue's allocator and clock
at the moment of acceptance, not at task construction time. -/
theorem C4_begints_follows_admission_order :
    (∀ q : TaskQueue, (q.enqueue).2.beginTs = allocTimestamp q ∧
      (q.enqueue).2.id = q.nextID) ∧
    (∀ (q : TaskQueue) (n : Nat),
      ((q.enqueueAll n).2).Pairwise
        (fun t1 t2 => t1.beginTs < t2.beginTs ∧ t1.id < t2.id)) := by
  constructor
  · intro q
    exact ⟨rfl, rfl⟩
  · intro q n
    induction n generalizing q with
    | zero => simp [TaskQueue.enqueueAll]
    | succ n ih =>
        simp only [TaskQueue.enqueueAll, TaskQueue.enqueue, allocTimestamp]
        refine List.Pairwise.cons ?_ (ih _)
        intro t ht
        have hb := enqueueAll_bounds n
          { nextID := q.nextID + 1, lastTs := q.lastTs + 1 } t ht
        exact ⟨hb.1, Int.lt_of_lt_of_le (Int.lt_add_one_of_le (le_refl _)) hb.2⟩

/-- C10: Proxy.Insert replaces an empty PartitionName on the
constructed insert task with the configured default partition name and
passes a non-empty PartitionName through unchanged; the task handed to
the DML queue is exactly this adjusted task. -/
theorem C10_empty_partition_name_defaulted (request : InsertRequest)
    (defaultPartitionName : String) (receiveSize : Nat)
    (enqueue wait : Except String Unit) (taskResult : MutationResult) :
    ((applyDefaultPartitionName (buildInsertTask request)
        defaultPartitionName).partitionName =
      if request.partitionName = "" then defaultPartitionName
      else request.partitionName) ∧
    ((applyDefaultPartitionName (buildInsertTask request)
        defaultPartitionName).collectionName = request.collectionName) ∧
    ((applyDefaultPartitionName (buildInsertTask request)
        defaultPartitionName).numRows = request.numRows) ∧
    ((Proxy.Insert StateCode.Healthy request receiveSize
        defaultPartitionName enqueue wait taskResult).task =
      some (applyDefaultPartitionName (buildInsertTask request)
        defaultPartitionName)) := by
  refine ⟨?_, ?_, ?_, ?_⟩
  · by_cases hp : request.partitionName = "" <;>
      simp [applyDefaultPartitionName, buildInsertTask, Nat.le_zero,
        string_length_zero_iff, hp]
  · by_cases hp : request.partitionName = "" <;>
      simp [applyDefaultPartitionName, buildInsertTask, Nat.le_zero,
        string_length_zero_iff, hp]
  · by_cases hp : request.partitionName = "" <;>
      simp [applyDefaultPartitionName, buildInsertTask, Nat.le_zero,
        string_length_zero_iff, hp]
  · cases enqueue with
    | error e => simp [Proxy.Insert, checkHealthy]
    | ok u =>
        cases wait with
        | error e => simp [Proxy.Insert, checkHealthy]
        | ok u => simp [Proxy.Insert, checkHealthy]

/-- C3: when a handler's scheduler-queue Enqueue call fails, the
handler returns synchronously — WaitToFinish is never called — a
response whose status has ErrorCode UnexpectedError and whose Reason
is the enqueue error's message verbatim, with a nil Go-level error
(shown for all six embedded handlers: CreateCollection, Insert,
Delete, Search, Query, Flush). -/
theorem C3_enqueue_failure_surfaced_verbatim (errMsg : String)
    (ireq : InsertRequest) (dreq : DeleteRequest) (sreq : SearchRequest)
    (qreq : QueryRequest) (receiveSize : Nat) (defaultPartitionName : String)
    (sSize : SearchResults → Nat) (qSize : QueryResults → Nat)
    (wait : Except String Unit) (mres : MutationResult)
    (sres : Option SearchResults) (qres : QueryResults)
    (st : Status) (fres : FlushResponse) :
    ((Proxy.CreateCollection StateCode.Healthy (Except.error errMsg) wait
        st).resp = failStatus errMsg ∧
      Event.waitCalled ∉ (Proxy.CreateCollection StateCode.Healthy
        (Except.error errMsg) wait st).events ∧
      (Proxy.CreateCollection StateCode.Healthy (Except.error errMsg) wait
        st).goErr = none) ∧
    ((Proxy.Insert StateCode.Healthy ireq receiveSize defaultPartitionName
        (Except.error errMsg) wait mres).resp.status = failStatus errMsg ∧
      Event.waitCalled ∉ (Proxy.Insert StateCode.Healthy ireq receiveSize
        defaultPartitionName (Except.error errMsg) wait mres).events ∧
      (Proxy.Insert StateCode.Healthy ireq receiveSize defaultPartitionName
        (Except.error errMsg) wait mres).goErr = none) ∧
    ((Proxy.Delete StateCode.Healthy dreq receiveSize (Except.error errMsg)
        wait mres).resp.status = failStatus errMsg ∧
      Event.waitCalled ∉ (Proxy.Delete StateCode.Healthy dreq receiveSize
        (Except.error errMsg) wait mres).events ∧
      (Proxy.Delete StateCode.Healthy dreq receiveSize (Except.error errMsg)
        wait mres).goErr = none) ∧
    ((Proxy.Search StateCode.Healthy sreq receiveSize sSize
        (Except.error errMsg) wait sres).resp =
          some { status := failStatus errMsg } ∧
      Event.waitCalled ∉ (Proxy.Search StateCode.Healthy sreq receiveSize
        sSize (Except.error errMsg) wait sres).events ∧
      (Proxy.Search StateCode.Healthy sreq receiveSize sSize
        (Except.error errMsg) wait sres).goErr = none) ∧
    ((Proxy.Query StateCode.Healthy qreq receiveSize qSize
        (Except.error errMsg) wait qres).resp.status = failStatus errMsg ∧
      Event.waitCalled ∉ (Proxy.Query StateCode.Healthy qreq receiveSize
        qSize (Except.error errMsg) wait qres).events ∧
      (Proxy.Query StateCode.Healthy qreq receiveSize qSize
        (Except.error errMsg) wait qres).goErr = none) ∧
    ((Proxy.Flush StateCode.Healthy (Except.error errMsg) wait
        fres).resp.status = failStatus errMsg ∧
      Event.waitCalled ∉ (Proxy.Flush StateCode.Healthy (Except.error errMsg)
        wait fres).events ∧
      (Proxy.Flush StateCode.Healthy (Except.error errMsg) wait
        fres).goErr = none) := by
  refine ⟨⟨rfl, ?_, rfl⟩, ⟨?_, ?_, rfl⟩, ⟨rfl, ?_, rfl⟩, ⟨rfl, ?_, rfl⟩,
    ⟨rfl, ?_, rfl⟩, ⟨rfl, ?_, rfl⟩⟩ <;>
    simp [Proxy.CreateCollection, Proxy.Insert, Proxy.Delete, Proxy.Search,
      Proxy.Query, Proxy.Flush, checkHealthy, constructFailedResponse,
      failStatus]

/-- C5: on the successful path of Search and Query, the proto byte
size of the merged task result is added to the read-result throughput
rate collector and to the proxy send-bytes counter before the result
is handed back to the caller (the egress events close the handler's
event trace, and the returned response is exactly the merged
result — for Query re-wrapped with only Status and FieldsData). -/
theorem C5_result_size_measured_post_merge (sreq : SearchRequest)
    (qreq : QueryRequest) (sReceiveSize qReceiveSize : Nat)
    (sSize : SearchResults → Nat) (qSize : QueryResults → Nat)
    (r : SearchResults) (qr : QueryResults) :
    ((Proxy.Search StateCode.Healthy sreq sReceiveSize sSize (Except.ok ())
        (Except.ok ()) (some r)).resp = some r ∧
      (Proxy.Search StateCode.Healthy sreq sReceiveSize sSize (Except.ok ())
        (Except.ok ()) (some r)).events =
        [Event.receiveBytesAdd SearchLabel sReceiveSize,
         Event.rateColAdd RateTypeDQLSearch sreq.nq,
         Event.functionCall "Search" TotalLabel,
         Event.enqueueCalled "dq",
         Event.waitCalled,
         Event.functionCall "Search" SuccessLabel,
         Event.sendBytesAdd (sSize r),
         Event.rateColAdd ReadResultThroughput (sSize r)]) ∧
    ((Proxy.Query StateCode.Healthy qreq qReceiveSize qSize (Except.ok ())
        (Except.ok ()) qr).resp = Proxy.queryRet qr ∧
      (Proxy.Query StateCode.Healthy qreq qReceiveSize qSize (Except.ok ())
        (Except.ok ()) qr).events =
        [Event.receiveBytesAdd QueryLabel qReceiveSize,
         Event.rateColAdd RateTypeDQLQuery 1,
         Event.functionCall "Query" TotalLabel,
         Event.enqueueCalled "dq",
         Event.waitCalled,
         Event.functionCall "Query" SuccessLabel,
         Event.rateColAdd ReadResultThroughput (qSize qr),
         Event.sendBytesAdd (qSize qr)]) := by
  refine ⟨⟨rfl, ?_⟩, ⟨rfl, ?_⟩⟩ <;>
    simp [Proxy.Search, Proxy.Query, checkHealthy]

/-- C1 counterexample: a healthy proxy, an insert of 100 rows, the DML
queue rejects the enqueue.  The mutation failed, ErrIndex does mark
all 100 rows, but the returned MutationResult's InsertCnt is 0, not
100 — the handler returns constructFailedResponse directly, never
reaching the line that sets InsertCnt, so the claim's "InsertCnt still
reports N attempted" fails on this path. -/
theorem C1_counterexample_rejected_batch_insertcnt_zero :
    (Proxy.Insert StateCode.Healthy
      { collectionName := "c1", partitionName := "p1", numRows := 100 }
      64 "_default" (Except.error "enqueue failed") (Except.ok ())
      {}).resp.errIndex.length = 100 ∧
    (Proxy.Insert StateCode.Healthy
      { collectionName := "c1", partitionName := "p1", numRows := 100 }
      64 "_default" (Except.error "enqueue failed") (Except.ok ())
      {}).resp.insertCnt = 0 ∧
    (0 : Int) ≠ 100 := by
  refine ⟨?_, rfl, by decide⟩
  simp [Proxy.Insert, checkHealthy, constructFailedResponse]

/-- C1 (amended): for an Insert of N rows on a healthy proxy, every
failure mode returns a MutationResult whose ErrIndex is exactly
[0, N) — length N, containing every row index; InsertCnt reports N
attempted only when the task completed with a non-Success status,
while on the enqueue-rejection and wait-error paths InsertCnt keeps
its zero value. -/
theorem C1_failed_mutation_marks_all_rows (request : InsertRequest)
    (receiveSize : Nat) (defaultPartitionName : String) (errMsg : String)
    (wait : Except String Unit) (taskResult : MutationResult) :
    ((Proxy.Insert StateCode.Healthy request receiveSize
        defaultPartitionName (Except.error errMsg) wait
        taskResult).resp.errIndex = List.range request.numRows ∧
      (Proxy.Insert StateCode.Healthy request receiveSize
        defaultPartitionName (Except.error errMsg) wait
        taskResult).resp.errIndex.length = request.numRows ∧
      (∀ i, i < request.numRows → i ∈ (Proxy.Insert StateCode.Healthy
        request receiveSize defaultPartitionName (Except.error errMsg) wait
        taskResult).resp.errIndex) ∧
      (Proxy.Insert StateCode.Healthy request receiveSize
        defaultPartitionName (Except.error errMsg) wait
        taskResult).resp.insertCnt = 0) ∧
    ((Proxy.Insert StateCode.Healthy request receiveSize
        defaultPartitionName (Except.ok ()) (Except.error errMsg)
        taskResult).resp.errIndex = List.range request.numRows ∧
      (Proxy.Insert StateCode.Healthy request receiveSize
        defaultPartitionName (Except.ok ()) (Except.error errMsg)
        taskResult).resp.errIndex.length = request.numRows ∧
      (Proxy.Insert StateCode.Healthy request receiveSize
        defaultPartitionName (Except.ok ()) (Except.error errMsg)
        taskResult).resp.insertCnt = 0) ∧
    (taskResult.status.errorCode ≠ ErrorCode.Success →
      (Proxy.Insert StateCode.Healthy request receiveSize
        defaultPartitionName (Except.ok ()) (Except.ok ())
        taskResult).resp.errIndex = List.range request.numRows ∧
      (Proxy.Insert StateCode.Healthy request receiveSize
        defaultPartitionName (Except.ok ()) (Except.ok ())
        taskResult).resp.errIndex.length = request.numRows ∧
      (Proxy.Insert StateCode.Healthy request receiveSize
        defaultPartitionName (Except.ok ()) (Except.ok ())
        taskResult).resp.insertCnt = request.numRows) := by
  refine ⟨⟨?_, ?_, ?_, rfl⟩, ⟨?_, ?_, rfl⟩, ?_⟩
  · simp [Proxy.Insert, checkHealthy, constructFailedResponse]
  · simp [Proxy.Insert, checkHealthy, constructFailedResponse]
  · intro i hi
    simp [Proxy.Insert, checkHealthy, constructFailedResponse,
      List.mem_range, hi]
  · simp [Proxy.Insert, checkHealthy, constructFailedResponse]
  · simp [Proxy.Insert, checkHealthy, constructFailedResponse]
  · intro h
    refine ⟨?_, ?_, ?_⟩ <;>
      simp [Proxy.Insert, checkHealthy, h]

/-- C1 witness: the amended theorem applied at a concrete 3-row insert
whose task completed with a non-Success status. -/
theorem C1_failed_mutation_marks_all_rows_witness :
    (Proxy.Insert StateCode.Healthy
      { collectionName := "c1", numRows := 3 } 7 "_default"
      (Except.ok ()) (Except.ok ())
      { status := { errorCode := ErrorCode.UnexpectedError, reason := "x" } }
      ).resp.insertCnt = 3 :=
  ((C1_failed_mutation_marks_all_rows
    { collectionName := "c1", numRows := 3 } 7 "_default" "m"
    (Except.ok ())
    { status := { errorCode := ErrorCode.UnexpectedError, reason := "x" } }
    ).2.2 (by decide)).2.2

/-- C2 counterexample: Flush is a task-based handler (it constructs a
flushTask and enqueues it into the DDL queue), yet on an unhealthy
proxy its status reason is "proxy is not healthy", not the
"proxy not healthy" of unhealthyStatus() used by every other handler,
so "every RPC handler returns ... reason 'proxy not healthy'" fails at
Flush. -/
theorem C2_counterexample_flush_unhealthy_reason :
    (Proxy.Flush StateCode.Abnormal (Except.ok ()) (Except.ok ())
      { status := {} }).resp.status.reason = "proxy is not healthy" ∧
    (Proxy.Flush StateCode.Abnormal (Except.ok ()) (Except.ok ())
      { status := {} }).resp.status.reason ≠ "proxy not healthy" := by
  exact ⟨rfl, by decide⟩

/-- C2 (amended): on a proxy whose state code is not Healthy, every
task-based handler returns, with a nil Go-level error and without
calling Enqueue on any scheduler queue, a response whose status has
ErrorCode UnexpectedError and reason "proxy not healthy" — except
Flush, whose reason is "proxy is not healthy" (same ErrorCode, same
nil error, same absence of enqueue). -/
theorem C2_unhealthy_rejected_without_enqueue (stateCode : StateCode)
    (h : checkHealthy stateCode = false) (ireq : InsertRequest)
    (dreq : DeleteRequest) (sreq : SearchRequest) (qreq : QueryRequest)
    (receiveSize : Nat) (defaultPartitionName : String)
    (sSize : SearchResults → Nat) (qSize : QueryResults → Nat)
    (enqueue wait : Except String Unit) (mres : MutationResult)
    (sres : Option SearchResults) (qres : QueryResults)
    (st : Status) (fres : FlushResponse) :
    ((Proxy.CreateCollection stateCode enqueue wait st).resp =
        unhealthyStatus ∧
      (Proxy.CreateCollection stateCode enqueue wait st).goErr = none ∧
      ∀ q, Event.enqueueCalled q ∉
        (Proxy.CreateCollection stateCode enqueue wait st).events) ∧
    ((Proxy.Insert stateCode ireq receiveSize defaultPartitionName enqueue
        wait mres).resp.status = unhealthyStatus ∧
      (Proxy.Insert stateCode ireq receiveSize defaultPartitionName enqueue
        wait mres).goErr = none ∧
      ∀ q, Event.enqueueCalled q ∉ (Proxy.Insert stateCode ireq receiveSize
        defaultPartitionName enqueue wait mres).events) ∧
    ((Proxy.Delete stateCode dreq receiveSize enqueue wait
        mres).resp.status = unhealthyStatus ∧
      (Proxy.Delete stateCode dreq receiveSize enqueue wait mres).goErr =
        none ∧
      ∀ q, Event.enqueueCalled q ∉
        (Proxy.Delete stateCode dreq receiveSize enqueue wait mres).events) ∧
    ((Proxy.Search stateCode sreq receiveSize sSize enqueue wait
        sres).resp = some { status := unhealthyStatus } ∧
      (Proxy.Search stateCode sreq receiveSize sSize enqueue wait
        sres).goErr = none ∧
      ∀ q, Event.enqueueCalled q ∉ (Proxy.Search stateCode sreq receiveSize
        sSize enqueue wait sres).events) ∧
    ((Proxy.Query stateCode qreq receiveSize qSize enqueue wait
        qres).resp.status = unhealthyStatus ∧
      (Proxy.Query stateCode qreq receiveSize qSize enqueue wait
        qres).goErr = none ∧
      ∀ q, Event.enqueueCalled q ∉ (Proxy.Query stateCode qreq receiveSize
        qSize enqueue wait qres).events) ∧
    ((Proxy.Flush stateCode enqueue wait fres).resp.status =
        { errorCode := ErrorCode.UnexpectedError
          reason := "proxy is not healthy" } ∧
      (Proxy.Flush stateCode enqueue wait fres).goErr = none ∧
      ∀ q, Event.enqueueCalled q ∉
        (Proxy.Flush stateCode enqueue wait fres).events) := by
  refine ⟨⟨?_, ?_, ?_⟩, ⟨?_, ?_, ?_⟩, ⟨?_, ?_, ?_⟩, ⟨?_, ?_, ?_⟩,
    ⟨?_, ?_, ?_⟩, ⟨?_, ?_, ?_⟩⟩ <;>
    simp [Proxy.CreateCollection, Proxy.Insert, Proxy.Delete, Proxy.Search,
      Proxy.Query, Proxy.Flush, h]

/-- C2 witness: the amended theorem applied at the concrete state code
Abnormal. -/
theorem C2_unhealthy_rejected_without_enqueue_witness :
    (Proxy.CreateCollection StateCode.Abnormal (Except.ok ()) (Except.ok ())
      {}).resp = unhealthyStatus :=
  (C2_unhealthy_rejected_without_enqueue StateCode.Abnormal (by decide)
    {} {} {} {} 0 "" (fun _ => 0) (fun _ => 0) (Except.ok ()) (Except.ok ())
    {} none {} {} { status := {} }).1.1

/-- C6: InvalidateCollectionMetaCache removes the named collection
from the metadata cache exactly when the cache exists and the name is
non-empty, removes the collection ID exactly when the cache exists and
the ID is non-zero, tears down the collection's DML stream and its
per-collection metrics exactly when the push's base MsgType is
DropCollection, and always returns a Success status with a nil
Go-level error. -/
theorem C6_invalidate_collection_meta_cache (present : Bool)
    (request : InvalidateCollMetaCacheRequest) :
    (Proxy.InvalidateCollectionMetaCache present request).resp =
      { errorCode := ErrorCode.Success, reason := "" } ∧
    (Proxy.InvalidateCollectionMetaCache present request).goErr = none ∧
    (Event.removeCollectionByName request.collectionName ∈
        (Proxy.InvalidateCollectionMetaCache present request).events ↔
      present = true ∧ request.collectionName ≠ "") ∧
    (Event.removeCollectionsByID request.collectionID ∈
        (Proxy.InvalidateCollectionMetaCache present request).events ↔
      present = true ∧ request.collectionID ≠ 0) ∧
    (Event.removeDMLStream request.collectionID ∈
        (Proxy.InvalidateCollectionMetaCache present request).events ↔
      getMsgType request.base = MsgType.DropCollection) ∧
    (Event.cleanupCollectionMetrics request.collectionName ∈
        (Proxy.InvalidateCollectionMetaCache present request).events ↔
      getMsgType request.base = MsgType.DropCollection) := by
  refine ⟨rfl, rfl, ?_, ?_, ?_, ?_⟩ <;>
    (cases present <;>
      by_cases hn : request.collectionName = "" <;>
      by_cases hid : request.collectionID = 0 <;>
      by_cases hb : getMsgType request.base = MsgType.DropCollection <;>
      simp [Proxy.InvalidateCollectionMetaCache, hn, hid, hb])

/-- C7: SetRates returns the unhealthy status without touching the
rate limiter when the proxy is unhealthy; when healthy it forwards the
rates to the global rate limiter and returns Success exactly when that
update succeeds, a failed update yielding UnexpectedError carrying the
update error's message — always with a nil Go-level error. -/
theorem C7_set_rates_runtime_reconfiguration (stateCode : StateCode)
    (update : Except String Unit) (errMsg : String) :
    (checkHealthy stateCode = false →
      (Proxy.SetRates stateCode update).resp = unhealthyStatus ∧
      (Proxy.SetRates stateCode update).events = []) ∧
    ((Proxy.SetRates StateCode.Healthy update).resp.errorCode =
        ErrorCode.Success ↔ update = Except.ok ()) ∧
    ((Proxy.SetRates StateCode.Healthy update).events =
      [Event.limiterSetRates]) ∧
    ((Proxy.SetRates StateCode.Healthy (Except.error errMsg)).resp =
      failStatus errMsg) ∧
    ((Proxy.SetRates stateCode update).goErr = none) := by
  refine ⟨?_, ?_, ?_, rfl, ?_⟩
  · intro h
    exact ⟨by simp [Proxy.SetRates, h], by simp [Proxy.SetRates, h]⟩
  · cases update with
    | error e => simp [Proxy.SetRates, checkHealthy, failStatus]
    | ok u => simp [Proxy.SetRates, checkHealthy]
  · cases update with
    | error e => simp [Proxy.SetRates, checkHealthy]
    | ok u => simp [Proxy.SetRates, checkHealthy]
  · cases hc : checkHealthy stateCode with
    | false => simp [Proxy.SetRates, hc]
    | true =>
        cases update with
        | error e => simp [Proxy.SetRates, hc]
        | ok u => simp [Proxy.SetRates, hc]

/-- C7 witness: the theorem applied at the concrete state code
Abnormal with a successful update. -/
theorem C7_set_rates_runtime_reconfiguration_witness :
    (Proxy.SetRates StateCode.Abnormal (Except.ok ())).resp =
      unhealthyStatus :=
  ((C7_set_rates_runtime_reconfiguration StateCode.Abnormal
    (Except.ok ()) "m").1 (by decide)).1

/-- C8: on an unhealthy proxy, Delete, Search and Query have already
added their ingress cost to the rate collector and the receive-bytes
counter when they reject the request (the unhealthy event trace is
exactly those two ingress additions: request bytes for Delete, query
count for Search, a unit count for Query), while Insert checks health
first and its unhealthy trace is empty. -/
theorem C8_ingress_accounted_before_health_check (stateCode : StateCode)
    (h : checkHealthy stateCode = false) (ireq : InsertRequest)
    (dreq : DeleteRequest) (sreq : SearchRequest) (qreq : QueryRequest)
    (iSize dSize sSize qSize : Nat) (sProtoSize : SearchResults → Nat)
    (qProtoSize : QueryResults → Nat) (enqueue wait : Except String Unit)
    (mres : MutationResult) (sres : Option SearchResults)
    (qres : QueryResults) :
    ((Proxy.Insert stateCode ireq iSize "_default" enqueue wait
        mres).events = []) ∧
    ((Proxy.Delete stateCode dreq dSize enqueue wait mres).events =
      [Event.rateColAdd RateTypeDMLDelete dSize,
       Event.receiveBytesAdd DeleteLabel dSize]) ∧
    ((Proxy.Search stateCode sreq sSize sProtoSize enqueue wait
        sres).events =
      [Event.receiveBytesAdd SearchLabel sSize,
       Event.rateColAdd RateTypeDQLSearch sreq.nq]) ∧
    ((Proxy.Query stateCode qreq qSize qProtoSize enqueue wait
        qres).events =
      [Event.receiveBytesAdd QueryLabel qSize,
       Event.rateColAdd RateTypeDQLQuery 1]) := by
  refine ⟨?_, ?_, ?_, ?_⟩ <;>
    simp [Proxy.Insert, Proxy.Delete, Proxy.Search, Proxy.Query, h]

/-- C8 witness: the theorem applied at the concrete state code
Initializing. -/
theorem C8_ingress_accounted_before_health_check_witness :
    (Proxy.Delete StateCode.Initializing {} 42 (Except.ok ()) (Except.ok ())
      {}).events =
      [Event.rateColAdd RateTypeDMLDelete 42,
       Event.receiveBytesAdd DeleteLabel 42] :=
  (C8_ingress_accounted_before_health_check StateCode.Initializing
    (by decide) {} {} {} {} 0 42 0 0 (fun _ => 0) (fun _ => 0)
    (Except.ok ()) (Except.ok ()) {} none {}).2.1

/-- C9 counterexample: a healthy proxy, rootCoord responds without RPC
error reporting IsHealthy = false but with an empty Reasons list, the
other coordinators healthy.  The claim requires IsHealthy = false, yet
the handler returns IsHealthy = true: the group error is nil and the
collected reason list is empty, because an unhealthy response
contributes only its own Reasons, not its IsHealthy flag. -/
theorem C9_counterexample_unhealthy_coord_empty_reasons :
    (Proxy.CheckHealth StateCode.Healthy 1
      (Except.ok { isHealthy := false, reasons := [] })
      (Except.ok { isHealthy := true, reasons := [] })
      (Except.ok { isHealthy := true, reasons := [] })
      (Except.ok { isHealthy := true, reasons := [] })).resp.isHealthy =
      true ∧
    ({ isHealthy := false, reasons := [] } : CheckHealthResponse).isHealthy
      ≠ true := by
  exact ⟨by decide, by decide⟩

/-- C9 (amended): CheckHealth returns IsHealthy = true, always with a
nil Go-level error, exactly when the proxy's own state code is Healthy,
all four coordinators respond without RPC error, and none of them
contributes a failure reason (an RPC error contributes one, an
IsHealthy = false response contributes its Reasons — so a coordinator
reporting IsHealthy = false with an empty Reasons list does not make
the aggregate unhealthy). -/
theorem C9_check_health_aggregation (stateCode : StateCode)
    (serverID : Int)
    (root query data index : Except String CheckHealthResponse) :
    (Proxy.CheckHealth stateCode serverID root query data index).goErr =
      none ∧
    ((Proxy.CheckHealth stateCode serverID root query data
        index).resp.isHealthy = true ↔
      (checkHealthy stateCode = true ∧
       isRPCError root = false ∧ isRPCError query = false ∧
       isRPCError data = false ∧ isRPCError index = false ∧
       fnCollect "rootcoord" root = [] ∧
       fnCollect "querycoord" query = [] ∧
       fnCollect "datacoord" data = [] ∧
       fnCollect "indexcoord" index = [])) := by
  refine ⟨?_, ?_⟩
  · cases hc : checkHealthy stateCode with
    | false => simp [Proxy.CheckHealth, hc]
    | true =>
        simp only [Proxy.CheckHealth, hc]
        split_ifs <;> rfl
  · cases hc : checkHealthy stateCode with
    | false => simp [Proxy.CheckHealth, hc]
    | true =>
        simp only [Proxy.CheckHealth, hc, if_neg (by simp :
          ¬ (true = false))]
        split_ifs with hcond
        · simp only [show (false = true) = False by simp, false_iff]
          rintro ⟨-, h1, h2, h3, h4, g1, g2, g3, g4⟩
          rcases hcond with hE | hlen
          · simp [h1, h2, h3, h4] at hE
          · simp [g1, g2, g3, g4] at hlen
        · push_neg at hcond
          obtain ⟨hE, hlen⟩ := hcond
          have hEf := Bool.not_eq_true _ |>.mp hE
          rcases Bool.or_eq_false_iff.mp hEf with ⟨hE1, e4⟩
          rcases Bool.or_eq_false_iff.mp hE1 with ⟨hE2, e3⟩
          rcases Bool.or_eq_false_iff.mp hE2 with ⟨e1, e2⟩
          rw [List.length_eq_zero] at hlen
          rcases List.append_eq_nil.mp hlen with ⟨hl1, g4⟩
          rcases List.append_eq_nil.mp hl1 with ⟨hl2, g3⟩
          rcases List.append_eq_nil.mp hl2 with ⟨g1, g2⟩
          simp [e1, e2, e3, e4, g1, g2, g3, g4]
